import Mathlib

/-!
Shallow embedding of the two source files of the repository:
  * `src/observer.ts` — an `EventManager` publish/subscribe registry and an
    `Editor` publisher;
  * `src/unnamed/part_000` — a command pattern over a mutable `Unit`:
    `ModifyUnitCommand` (undoable), `BuyCommand`/`SellCommand` (stateless)
    and an `InputHandler` command source.

Object references (JS listener objects, `Unit` objects) are modeled as `Nat`
ids; JS `number` as `Int`; the JS `Map<string, Listener[]>` as an association
list (like `Map`, `set` keeps the position of an existing key and appends a
fresh one).
-/

namespace DesignPatterns

/-! ### `src/observer.ts`: EventManager -/

/-- The `listeners : Map<string, Listener[]>` field, listeners as ids. -/
abbrev Reg := List (String × List Nat)

/-- `Map.get`: first (unique) entry for the key, if any. -/
def mapGet : Reg → String → Option (List Nat)
  | [], _ => none
  | p :: rest, k => if p.1 = k then some p.2 else mapGet rest k

/-- `Map.set`: replace the entry for the key in place, or append a new one. -/
def mapSet : Reg → String → List Nat → Reg
  | [], k, v => [(k, v)]
  | p :: rest, k, v => if p.1 = k then (k, v) :: rest else p :: mapSet rest k v

/-- `this.listeners.get(eventType) || []` / `?? []`: the sequence for a key
(a missing key reads as the empty sequence). -/
def getListeners (r : Reg) (k : String) : List Nat := (mapGet r k).getD []

/-- `subscribe(eventType, listener)`:
`this.listeners.set(eventType, [...eventListeners, listener])` — appends to a
fresh array, leaving any array previously fetched from the map untouched. -/
def subscribe (r : Reg) (k : String) (l : Nat) : Reg :=
  mapSet r k (getListeners r k ++ [l])

/-- `unsubscribe(eventType, listener)`:
`this.listeners.set(eventType, eventListeners.filter(l => l !== listener))` —
removal is by reference identity (`!==`), modeled as id inequality. -/
def unsubscribe (r : Reg) (k : String) (l : Nat) : Reg :=
  mapSet r k ((getListeners r k).filter (fun x => !(x == l)))

/-- What a listener's `update` does to the registry.  The source's concrete
listeners (`LoggingListener`, `EmailAlertsListener`) only touch external sinks
(`pure` here); a listener that subscribes another listener during its own
`update` is the case the spec singles out. -/
inductive ListenerEff where
  | pure
  | subscribes (key : String) (lid : Nat)
deriving DecidableEq

/-- Registry state together with the observable trace of `update` invocations:
`log` records `(listener id, payload)` in invocation order. -/
structure EMState where
  reg : Reg
  log : List (Nat × String)
deriving DecidableEq

/-- Effect of one listener's `update` call on the registry. -/
def applyEff (env : Nat → ListenerEff) (l : Nat) (r : Reg) : Reg :=
  match env l with
  | .pure => r
  | .subscribes k l3 => subscribe r k l3

/-- Dispatch loop of `notify`: invoke each listener of `snap` in order,
recording the invocation and applying the listener's effect. -/
def notifyAux (env : Nat → ListenerEff) (snap : List Nat) (d : String)
    (st : EMState) : EMState :=
  match snap with
  | [] => st
  | l :: rest =>
      notifyAux env rest d
        { reg := applyEff env l st.reg, log := st.log ++ [(l, d)] }

/-- `notify(eventType, data)`: `for (const listener of
this.listeners.get(eventType) ?? []) listener.update(data)`.  The `for..of`
iterates the array fetched from the map once; since `subscribe` and
`unsubscribe` always `set` a freshly built array, that array is a snapshot of
the sequence as of the `notify` call. -/
def notify (env : Nat → ListenerEff) (st : EMState) (k : String) (d : String) :
    EMState :=
  notifyAux env (getListeners st.reg k) d st

/-- Number of `update` invocations of listener `x` recorded in a log. -/
def invCount (x : Nat) (log : List (Nat × String)) : Nat :=
  log.countP (fun q => q.1 == x)

/-- Two registries with the same listener sequence at every key. -/
def sameListeners (r1 r2 : Reg) : Prop :=
  ∀ k, getListeners r1 k = getListeners r2 k

/-! ### Registry lemmas -/

lemma mapGet_mapSet_self (r : Reg) (k : String) (v : List Nat) :
    mapGet (mapSet r k v) k = some v := by
  induction r with
  | nil => simp [mapSet, mapGet]
  | cons p rest ih =>
      by_cases hp : p.1 = k
      · simp [mapSet, mapGet, hp]
      · simp [mapSet, mapGet, hp, ih]

lemma mapGet_mapSet_ne (r : Reg) (k k' : String) (v : List Nat)
    (h : k' ≠ k) : mapGet (mapSet r k v) k' = mapGet r k' := by
  induction r with
  | nil =>
      simp only [mapSet, mapGet]
      rw [if_neg (fun hh : k = k' => h hh.symm)]
  | cons p rest ih =>
      by_cases hp : p.1 = k
      · have hk : ¬ (k = k') := fun hh => h hh.symm
        simp [mapSet, mapGet, hp, hk]
      · simp [mapSet, mapGet, hp, ih]

lemma getListeners_mapSet_self (r : Reg) (k : String) (v : List Nat) :
    getListeners (mapSet r k v) k = v := by
  simp [getListeners, mapGet_mapSet_self]

lemma getListeners_mapSet_ne (r : Reg) (k k' : String) (v : List Nat)
    (h : k' ≠ k) : getListeners (mapSet r k v) k' = getListeners r k' := by
  simp [getListeners, mapGet_mapSet_ne r k k' v h]

lemma getListeners_subscribe_self (r : Reg) (k : String) (l : Nat) :
    getListeners (subscribe r k l) k = getListeners r k ++ [l] := by
  simp [subscribe, getListeners_mapSet_self]

lemma getListeners_subscribe_ne (r : Reg) (k k' : String) (l : Nat)
    (h : k' ≠ k) : getListeners (subscribe r k l) k' = getListeners r k' := by
  simp [subscribe, getListeners_mapSet_ne r k k' _ h]

lemma getListeners_unsubscribe_self (r : Reg) (k : String) (l : Nat) :
    getListeners (unsubscribe r k l) k
      = (getListeners r k).filter (fun x => !(x == l)) := by
  simp [unsubscribe, getListeners_mapSet_self]

lemma mem_getListeners_subscribe (r : Reg) (k k' : String) (l x : Nat)
    (hx : x ∈ getListeners r k') : x ∈ getListeners (subscribe r k l) k' := by
  by_cases hk : k' = k
  · subst hk
    rw [getListeners_subscribe_self]
    exact List.mem_append_left _ hx
  · rwa [getListeners_subscribe_ne r k k' l hk]

lemma mem_getListeners_applyEff (env : Nat → ListenerEff) (l : Nat) (r : Reg)
    (k' : String) (x : Nat) (hx : x ∈ getListeners r k') :
    x ∈ getListeners (applyEff env l r) k' := by
  cases he : env l with
  | pure => simpa [applyEff, he]
  | subscribes k2 l2 =>
      simp only [applyEff, he]
      exact mem_getListeners_subscribe r k2 k' l2 x hx

lemma notifyAux_log (env : Nat → ListenerEff) (d : String) (snap : List Nat) :
    ∀ st : EMState,
      (notifyAux env snap d st).log = st.log ++ snap.map (fun l => (l, d)) := by
  induction snap with
  | nil => intro st; simp [notifyAux]
  | cons l rest ih => intro st; simp [notifyAux, ih]

lemma notifyAux_reg_mem (env : Nat → ListenerEff) (d : String)
    (snap : List Nat) :
    ∀ (st : EMState) (k' : String) (x : Nat),
      x ∈ getListeners st.reg k' →
      x ∈ getListeners (notifyAux env snap d st).reg k' := by
  induction snap with
  | nil => intro st k' x hx; simpa [notifyAux]
  | cons l rest ih =>
      intro st k' x hx
      exact ih _ k' x (mem_getListeners_applyEff env l st.reg k' x hx)

lemma notifyAux_reg_subscribed (env : Nat → ListenerEff) (d : String)
    (k : String) (l1 l3 : Nat) (he : env l1 = .subscribes k l3)
    (snap : List Nat) :
    ∀ st : EMState, l1 ∈ snap →
      l3 ∈ getListeners (notifyAux env snap d st).reg k := by
  induction snap with
  | nil => intro st h; simp at h
  | cons a rest ih =>
      intro st hmem
      have hstep : notifyAux env (a :: rest) d st
          = notifyAux env rest d
              { reg := applyEff env a st.reg, log := st.log ++ [(a, d)] } := rfl
      rw [hstep]
      rcases List.mem_cons.mp hmem with h | h
      · apply notifyAux_reg_mem
        show l3 ∈ getListeners (applyEff env a st.reg) k
        have hreg : applyEff env a st.reg = subscribe st.reg k l3 := by
          unfold applyEff; rw [← h, he]
        rw [hreg, getListeners_subscribe_self]
        exact List.mem_append_right _ (List.mem_singleton.mpr rfl)
      · exact ih _ h

lemma notify_log (env : Nat → ListenerEff) (st : EMState) (k d : String) :
    (notify env st k d).log
      = st.log ++ (getListeners st.reg k).map (fun l => (l, d)) :=
  notifyAux_log env d (getListeners st.reg k) st

lemma invCount_append (x : Nat) (a b : List (Nat × String)) :
    invCount x (a ++ b) = invCount x a + invCount x b := by
  simp [invCount, List.countP_append]

lemma invCount_map_pair (x : Nat) (d : String) (snap : List Nat) :
    invCount x (snap.map (fun l => (l, d))) = snap.count x := by
  induction snap with
  | nil => rfl
  | cons a rest ih =>
      simp only [List.map_cons, invCount, List.countP_cons, List.count_cons]
      simp only [invCount] at ih
      rw [ih]

lemma invCount_notify (env : Nat → ListenerEff) (st : EMState) (k d : String)
    (x : Nat) :
    invCount x (notify env st k d).log
      = invCount x st.log + (getListeners st.reg k).count x := by
  rw [notify_log, invCount_append, invCount_map_pair]

lemma getListeners_unsubscribe_ne (r : Reg) (k k' : String) (l : Nat)
    (h : k' ≠ k) : getListeners (unsubscribe r k l) k' = getListeners r k' := by
  simp [unsubscribe, getListeners_mapSet_ne r k k' _ h]

lemma count_filter_ne (l : List Nat) (a b : Nat) (h : b ≠ a) :
    (l.filter (fun x => !(x == a))).count b = l.count b := by
  induction l with
  | nil => rfl
  | cons c rest ih =>
      by_cases hc : c = a
      · subst hc
        have hb : ¬ (b = c) := h
        simp [List.filter_cons, List.count_cons, hb, ih]
      · simp [List.filter_cons, List.count_cons, hc, ih]

lemma drop_length_append {α : Type} (a b : List α) : (a ++ b).drop a.length = b := by
  induction a with
  | nil => simp
  | cons x xs ih => simp [ih]

/-! ### `src/observer.ts`: Editor (concrete publisher) -/

/-- The external `File` object: its `name` (a `Path`, modeled as a string) and
whether `write()` has been called on it. -/
structure File where
  name : String
  written : Bool
deriving DecidableEq

/-- `class Editor { events: EventManager; file: File }`, together with the
observable trace of its notifications: each log entry records
`(listener id, event key, payload, the editor file state the listener can
query during its update call)`.  The editor's concrete listeners
(`LoggingListener`, `EmailAlertsListener`) only write to external sinks and do
not touch the registry, so dispatch here only records the invocation. -/
structure Editor where
  events : Reg
  file : Option File
  log : List (Nat × String × String × Option File)
deriving DecidableEq

/-- `this.events.notify(key, data)` as called by the editor: one log entry per
currently subscribed listener, in order, recording the editor state the
listener observes at dispatch time. -/
def editorNotify (e : Editor) (k d : String) : Editor :=
  { e with log := e.log ++ (getListeners e.events k).map (fun l => (l, k, d, e.file)) }

/-- `openFile(path) { this.file = new File(path);
this.events.notify("open", this.file.name) }` — assigns the file first, then
notifies with the new file's name. -/
def Editor.openFile (e : Editor) (p : String) : Editor :=
  editorNotify { e with file := some ⟨p, false⟩ } "open" p

/-- `saveFile() { this.file.write();
this.events.notify("save", this.file.name) }` — writes first, then notifies.
Calling it with no file throws in JS (`this.file` is `undefined`), hence the
`Option` result. -/
def Editor.saveFile (e : Editor) : Option Editor :=
  match e.file with
  | none => none
  | some f => some (editorNotify { e with file := some ⟨f.name, true⟩ } "save" f.name)

/-! ### `src/unnamed/part_000`: command pattern -/

/-- `enum Action { BUY_ACTION, SELL_ACTION }`. -/
inductive Action where
  | BUY_ACTION
  | SELL_ACTION
deriving DecidableEq

/-- The stateless commands `BuyCommand` / `SellCommand` returned by
`handleInput` (each holds no state, so the kind identifies it). -/
inductive SimpleCommandKind where
  | buy
  | sell
deriving DecidableEq

/-- `class Unit { private _value: number }` objects live on a heap addressed
by object reference (a `Nat` id); the heap stores each unit's `_value`. -/
abbrev UnitHeap := Nat → Int

/-- `Unit.moveTo(value) { this._value += value }` — note: additive, it adds
the argument to the current value rather than assigning it. -/
def moveTo (h : UnitHeap) (uid : Nat) (v : Int) : UnitHeap :=
  fun i => if i = uid then h uid + v else h i

/-- `class ModifyUnitCommand { constructor(private unit: Unit, private value:
number, private prevValue: number) }` — `unit` is a reference. -/
structure ModifyUnitCommand where
  unit : Nat
  value : Int
  prevValue : Int
deriving DecidableEq

/-- `execute() { this.prevValue = this.unit.value; this.unit.moveTo(this.value) }`
returns the updated command object and the updated heap. -/
def ModifyUnitCommand.execute (c : ModifyUnitCommand) (h : UnitHeap) :
    ModifyUnitCommand × UnitHeap :=
  ({ c with prevValue := h c.unit }, moveTo h c.unit c.value)

/-- `undo() { this.unit.moveTo(this.prevValue) }`. -/
def ModifyUnitCommand.undo (c : ModifyUnitCommand) (h : UnitHeap) : UnitHeap :=
  moveTo h c.unit c.prevValue

/-- `handleInput()`: checks `isTriggered(BUY_ACTION)` then
`isTriggered(SELL_ACTION)`, returning the first matching command, else null.
The trigger predicate is an external capability, passed in explicitly. -/
def handleInput (isTriggered : Action → Bool) : Option SimpleCommandKind :=
  if isTriggered Action.BUY_ACTION then some SimpleCommandKind.buy
  else if isTriggered Action.SELL_ACTION then some SimpleCommandKind.sell
  else none

/-- `handleUnitInput()`: `this.selectedUnit = getSelectedUnit()` runs first,
before any trigger check or command construction.  The external resolver
`getSelectedUnit` is modeled as a stream `resolver` of unit ids consumed at
index `n` (the number of resolutions made so far); the returned `Nat` is the
updated index, so `result.2 - n` counts the resolutions the call performed. -/
def handleUnitInput (resolver : Nat → Nat) (h : UnitHeap)
    (isTriggered : Action → Bool) (n : Nat) : Option ModifyUnitCommand × Nat :=
  let uid := resolver n
  let n' := n + 1
  if isTriggered Action.BUY_ACTION then
    (some { unit := uid, value := h uid + 1, prevValue := h uid }, n')
  else if isTriggered Action.SELL_ACTION then
    (some { unit := uid, value := h uid - 1, prevValue := h uid }, n')
  else (none, n')

/-- A concrete heap where every unit's `_value` is `5` (unit id `0` plays the
Target of the spec's scenarios). -/
def unitHeap5 : UnitHeap := fun _ => 5

/-! ### Claims about the command pattern -/

/-- C1: the claim says executing an undoable command built over a Target with
value `v0` and then calling `undo` restores the value to exactly `v0`.  The
code does not: `moveTo` is additive, so from `v0 = 5` with `v1 = 6`, `execute`
leaves `11` and `undo` adds the captured previous value `5` back on top,
leaving `16 ≠ 5`.  This theorem evaluates the code at that failing input. -/
theorem undoDoesNotRestoreValue :
    (((ModifyUnitCommand.mk 0 6 5).execute unitHeap5).2) 0 = 11
    ∧ (((ModifyUnitCommand.mk 0 6 5).execute unitHeap5).1.undo
        (((ModifyUnitCommand.mk 0 6 5).execute unitHeap5).2)) 0 = 16
    ∧ ¬ ((((ModifyUnitCommand.mk 0 6 5).execute unitHeap5).1.undo
        (((ModifyUnitCommand.mk 0 6 5).execute unitHeap5).2)) 0 = unitHeap5 0) := by
  decide

/-- C2 counterexample: at the spec's own scenario input (Target value `5`,
`ModifyUnitCommand(new=6, prev=5)`), it is not the case that `execute` leaves
`11` and the subsequent `undo` leaves `5`: `undo` leaves `16`. -/
theorem scenarioUndoNotFive :
    ¬ ((((ModifyUnitCommand.mk 0 6 5).execute unitHeap5).2) 0 = 11
       ∧ (((ModifyUnitCommand.mk 0 6 5).execute unitHeap5).1.undo
           (((ModifyUnitCommand.mk 0 6 5).execute unitHeap5).2)) 0 = 5) := by
  decide

/-- C2 amended: for a Target whose value is `5`, `execute()` of
`ModifyUnitCommand(new=6, prev=5)` leaves the value `11` (additive `moveTo`),
and a subsequent `undo()` leaves the value `16` (undo adds the captured
previous value `5` on top), not `5`. -/
theorem scenarioAdditiveValues :
    (((ModifyUnitCommand.mk 0 6 5).execute unitHeap5).2) 0 = 11
    ∧ (((ModifyUnitCommand.mk 0 6 5).execute unitHeap5).1.undo
        (((ModifyUnitCommand.mk 0 6 5).execute unitHeap5).2)) 0 = 16 := by
  decide

/-- C3: immediately after `execute`, the command's stored `prevValue` equals
the Target's value as it was immediately before the call (`h c.unit`, with `h`
the pre-state heap); the command's `unit` reference and `value` field are
untouched. -/
theorem executeCapturesPrev (c : ModifyUnitCommand) (h : UnitHeap) :
    (c.execute h).1.prevValue = h c.unit
    ∧ (c.execute h).1.unit = c.unit
    ∧ (c.execute h).1.value = c.value :=
  ⟨rfl, rfl, rfl⟩

/-- C6 counterexample: calling `undo()` on `ModifyUnitCommand(new=6, prev=7)`
before any `execute()`, with the Target at `5`, signals no error and silently
mutates the Target: its value becomes `12 = 5 + 7`, contradicting the claim
that undo-before-execute fails loudly and does not mutate the Target. -/
theorem undoBeforeExecuteMutates :
    ((ModifyUnitCommand.mk 0 6 7).undo unitHeap5) 0 = 12
    ∧ ¬ (((ModifyUnitCommand.mk 0 6 7).undo unitHeap5) 0 = unitHeap5 0) := by
  decide

/-- C6 amended: calling `undo()` before any `execute()` signals no error —
`undo` is total — and silently mutates the Target, adding the
constructor-supplied `prevValue` to its value. -/
theorem undoBeforeExecuteAddsPrev (c : ModifyUnitCommand) (h : UnitHeap) :
    (c.undo h) c.unit = h c.unit + c.prevValue := by
  simp [ModifyUnitCommand.undo, moveTo]

/-- C8: both polls check triggers in fixed priority order BUY before SELL.
`handleInput` returns the first command whose trigger fired (null if none).
`handleUnitInput` consumes exactly one resolution from the target resolver per
call, before constructing any command, so the command it returns (when some
trigger fired) refers to that one resolved Target and captures that Target's
value as its snapshot; and its `value` field witnesses the priority order:
it is the BUY command's `value + 1` whenever BUY fired (even if SELL also
fired), and the SELL command's `value - 1` only when BUY did not fire but
SELL did. -/
theorem pollPriorityAndSnapshot (resolver : Nat → Nat) (h : UnitHeap)
    (trig : Action → Bool) (n : Nat) :
    (trig Action.BUY_ACTION = true →
      handleInput trig = some SimpleCommandKind.buy)
    ∧ (trig Action.BUY_ACTION = false → trig Action.SELL_ACTION = true →
        handleInput trig = some SimpleCommandKind.sell)
    ∧ (handleInput trig = none ↔
        (trig Action.BUY_ACTION = false ∧ trig Action.SELL_ACTION = false))
    ∧ (handleUnitInput resolver h trig n).2 = n + 1
    ∧ ((handleUnitInput resolver h trig n).1.map ModifyUnitCommand.unit
        = if trig Action.BUY_ACTION || trig Action.SELL_ACTION
          then some (resolver n) else none)
    ∧ ((handleUnitInput resolver h trig n).1.map ModifyUnitCommand.prevValue
        = if trig Action.BUY_ACTION || trig Action.SELL_ACTION
          then some (h (resolver n)) else none)
    ∧ ((handleUnitInput resolver h trig n).1.map ModifyUnitCommand.value
        = if trig Action.BUY_ACTION then some (h (resolver n) + 1)
          else if trig Action.SELL_ACTION then some (h (resolver n) - 1)
          else none) := by
  cases hb : trig Action.BUY_ACTION <;> cases hs : trig Action.SELL_ACTION <;>
    simp [handleInput, handleUnitInput, hb, hs]

/-- Trigger fake: both triggers fire. -/
def wTrigBoth : Action → Bool := fun _ => true

/-- Trigger fake: only SELL fires. -/
def wTrigSell : Action → Bool := fun a =>
  match a with
  | .BUY_ACTION => false
  | .SELL_ACTION => true

/-- Trigger fake: no trigger fires. -/
def wTrigNone : Action → Bool := fun _ => false

/-- Resolver fake: resolution number `n` yields unit id `n + 10`. -/
def wResolver : Nat → Nat := fun n => n + 10

/-- C8 witness: concrete polls — both triggers fire ⟹ buy wins; only SELL
fires ⟹ sell; none fires ⟹ null; one resolution is consumed and the returned
command refers to the resolved unit id `10` (value `5`); with both triggers
fired the returned unit command is the BUY one (`value` is `5 + 1 = 6`), and
with only SELL fired it is the SELL one (`value` is `5 - 1 = 4`). -/
theorem pollPriorityAndSnapshotWitness :
    handleInput wTrigBoth = some SimpleCommandKind.buy
    ∧ handleInput wTrigSell = some SimpleCommandKind.sell
    ∧ handleInput wTrigNone = none
    ∧ (handleUnitInput wResolver unitHeap5 wTrigBoth 0).2 = 1
    ∧ (handleUnitInput wResolver unitHeap5 wTrigBoth 0).1.map
        ModifyUnitCommand.unit = some 10
    ∧ (handleUnitInput wResolver unitHeap5 wTrigBoth 0).1.map
        ModifyUnitCommand.value = some 6
    ∧ (handleUnitInput wResolver unitHeap5 wTrigSell 0).1.map
        ModifyUnitCommand.value = some 4 :=
  ⟨(pollPriorityAndSnapshot wResolver unitHeap5 wTrigBoth 0).1 rfl,
   (pollPriorityAndSnapshot wResolver unitHeap5 wTrigSell 0).2.1 rfl rfl,
   (pollPriorityAndSnapshot wResolver unitHeap5 wTrigNone 0).2.2.1.mpr ⟨rfl, rfl⟩,
   (pollPriorityAndSnapshot wResolver unitHeap5 wTrigBoth 0).2.2.2.1,
   ((pollPriorityAndSnapshot wResolver unitHeap5 wTrigBoth 0).2.2.2.2.1).trans
     (by decide),
   ((pollPriorityAndSnapshot wResolver unitHeap5 wTrigBoth 0).2.2.2.2.2.2).trans
     (by decide),
   ((pollPriorityAndSnapshot wResolver unitHeap5 wTrigSell 0).2.2.2.2.2.2).trans
     (by decide)⟩

/-! ### Claims about the observer -/

/-- C4: `notify(k, payload)` dispatches to a snapshot of `k`'s listener
sequence taken before dispatching: if listener `l1`, subscribed to `k`,
subscribes a new listener `l3` to `k` during its own `update` call, then `l3`
is not invoked in the same notify pass (its invocation count is unchanged),
but it is subscribed afterwards and is invoked on the next `notify(k, ...)`
(its invocation count strictly increases). -/
theorem notifySnapshotIsolation (env : Nat → ListenerEff) (st : EMState)
    (k d d' : String) (l1 l3 : Nat)
    (h1 : l1 ∈ getListeners st.reg k)
    (h2 : env l1 = ListenerEff.subscribes k l3)
    (h3 : l3 ∉ getListeners st.reg k) :
    invCount l3 (notify env st k d).log = invCount l3 st.log
    ∧ l3 ∈ getListeners (notify env st k d).reg k
    ∧ invCount l3 (notify env st k d).log
        < invCount l3 (notify env (notify env st k d) k d').log := by
  have hc2 : l3 ∈ getListeners (notify env st k d).reg k :=
    notifyAux_reg_subscribed env d k l1 l3 h2 (getListeners st.reg k) st h1
  refine ⟨?_, hc2, ?_⟩
  · rw [invCount_notify, List.count_eq_zero.mpr h3, Nat.add_zero]
  · rw [invCount_notify env (notify env st k d) k d' l3]
    have hpos : 0 < (getListeners (notify env st k d).reg k).count l3 :=
      List.count_pos_iff.mpr hc2
    omega

/-- Listener environment for witnesses: listener 1 subscribes listener 3 to
"save" during its own update; every other listener is effect-free. -/
def wEnv : Nat → ListenerEff := fun l =>
  if l == 1 then ListenerEff.subscribes "save" 3 else ListenerEff.pure

/-- Registry state for the C4 witness: listener 1 subscribed to "save". -/
def wSt : EMState := ⟨[("save", [1])], []⟩

/-- C4 witness: with listener 1 subscribed to "save" and subscribing listener
3 during its update, the first notify does not invoke 3, 3 ends up
subscribed, and the second notify invokes it. -/
theorem notifySnapshotIsolationWitness :
    invCount 3 (notify wEnv wSt "save" "x").log = invCount 3 wSt.log
    ∧ 3 ∈ getListeners (notify wEnv wSt "save" "x").reg "save"
    ∧ invCount 3 (notify wEnv wSt "save" "x").log
        < invCount 3 (notify wEnv (notify wEnv wSt "save" "x") "save" "y").log :=
  notifySnapshotIsolation wEnv wSt "save" "x" "y" 1 3
    (by decide) (by decide) (by decide)

/-- C5: `notify` invokes exactly the listeners currently subscribed to the
key, in sequence order, each paired with the payload; `subscribe` appends to
the sequence, so earlier subscribers are invoked first (subscribing `a` then
`b` yields the sequence `… ++ [a, b]`); and a listener subscribed `n` times is
invoked `n` times per notify (its invocation count grows by its multiplicity
in the sequence). -/
theorem notifySubscriptionOrder (env : Nat → ListenerEff) (st : EMState)
    (k d : String) (a b : Nat) :
    (notify env st k d).log
      = st.log ++ (getListeners st.reg k).map (fun l => (l, d))
    ∧ getListeners (subscribe st.reg k a) k = getListeners st.reg k ++ [a]
    ∧ getListeners (subscribe (subscribe st.reg k a) k b) k
        = getListeners st.reg k ++ [a, b]
    ∧ invCount a (notify env st k d).log
        = invCount a st.log + (getListeners st.reg k).count a := by
  refine ⟨notify_log env st k d, getListeners_subscribe_self _ _ _, ?_,
    invCount_notify env st k d a⟩
  rw [getListeners_subscribe_self, getListeners_subscribe_self]
  simp

/-- C7: notifying a key with no subscribers changes nothing at all, and
unsubscribing from a key with no subscribers, or unsubscribing a listener not
present under a key, leaves the listener sequence of every key unchanged
(no error can occur: all three operations are total). -/
theorem missingKeyNoop (env : Nat → ListenerEff) (st : EMState)
    (k k2 : String) (l : Nat) (d : String)
    (h1 : getListeners st.reg k = [])
    (h2 : l ∉ getListeners st.reg k2) :
    notify env st k d = st
    ∧ sameListeners (unsubscribe st.reg k l) st.reg
    ∧ sameListeners (unsubscribe st.reg k2 l) st.reg := by
  refine ⟨?_, ?_, ?_⟩
  · unfold notify
    rw [h1]
    rfl
  · intro k'
    by_cases hk : k' = k
    · subst hk
      rw [getListeners_unsubscribe_self, h1]
      rfl
    · exact getListeners_unsubscribe_ne st.reg k k' l hk
  · intro k'
    by_cases hk : k' = k2
    · subst hk
      rw [getListeners_unsubscribe_self]
      apply List.filter_eq_self.mpr
      intro x hx
      have hxl : ¬ (x = l) := fun he => h2 (he ▸ hx)
      simp [hxl]
    · exact getListeners_unsubscribe_ne st.reg k2 k' l hk

/-- Registry state for the C7 witness: listener 1 subscribed to "a". -/
def wSt2 : EMState := ⟨[("a", [1])], []⟩

/-- C7 witness: with only listener 1 under "a", notifying the unknown key
"nope", unsubscribing from "nope", and unsubscribing the absent listener 7
from "a" are all observational no-ops. -/
theorem missingKeyNoopWitness :
    notify wEnv wSt2 "nope" "x" = wSt2
    ∧ sameListeners (unsubscribe wSt2.reg "nope" 7) wSt2.reg
    ∧ sameListeners (unsubscribe wSt2.reg "a" 7) wSt2.reg :=
  missingKeyNoop wEnv wSt2 "nope" "a" 7 "x" (by decide) (by decide)

/-- C10: `unsubscribe(k, a)` removes listeners by reference identity: every
occurrence of the exact object `a` disappears from `k`'s sequence, while any
distinct object `b` — even one with identical behavior (`env a = env b`,
i.e. structurally equal) — keeps its multiplicity in the sequence and is still
invoked by a subsequent `notify(k, ...)` exactly as often as before. -/
theorem unsubscribeByIdentity (env : Nat → ListenerEff) (st : EMState)
    (k d : String) (a b : Nat) (hab : a ≠ b) (_hstruct : env a = env b) :
    (getListeners (unsubscribe st.reg k a) k).count a = 0
    ∧ (getListeners (unsubscribe st.reg k a) k).count b
        = (getListeners st.reg k).count b
    ∧ invCount b (notify env { st with reg := unsubscribe st.reg k a } k d).log
        = invCount b st.log + (getListeners st.reg k).count b := by
  have hcb : (getListeners (unsubscribe st.reg k a) k).count b
      = (getListeners st.reg k).count b := by
    rw [getListeners_unsubscribe_self]
    exact count_filter_ne _ a b (Ne.symm hab)
  refine ⟨?_, hcb, ?_⟩
  · rw [getListeners_unsubscribe_self]
    apply List.count_eq_zero.mpr
    intro hmem
    have hp := (List.mem_filter.mp hmem).2
    simp at hp
  · rw [invCount_notify]
    rw [hcb]

/-- Effect-free listener environment (the source's concrete listeners only
write to external sinks). -/
def wEnvPure : Nat → ListenerEff := fun _ => ListenerEff.pure

/-- Registry state for the C10 witness: listener 1 subscribed twice and
listener 2 once under "k". -/
def wSt3 : EMState := ⟨[("k", [1, 2, 1])], []⟩

/-- C10 witness: unsubscribing listener 1 from "k" removes both of its
occurrences, keeps the structurally-equal listener 2 subscribed, and the next
notify still invokes listener 2 once. -/
theorem unsubscribeByIdentityWitness :
    (getListeners (unsubscribe wSt3.reg "k" 1) "k").count 1 = 0
    ∧ (getListeners (unsubscribe wSt3.reg "k" 1) "k").count 2
        = (getListeners wSt3.reg "k").count 2
    ∧ invCount 2 (notify wEnvPure
          { wSt3 with reg := unsubscribe wSt3.reg "k" 1 } "k" "x").log
        = invCount 2 wSt3.log + (getListeners wSt3.reg "k").count 2 :=
  unsubscribeByIdentity wEnvPure wSt3 "k" "x" 1 2 (by decide) rfl

/-- C9: `openFile` assigns the new file before notifying: the notify pass uses
key "open", payload the new file's name, and every dispatched listener
observes the post-mutation file; `saveFile` writes the file before notifying:
key "save", payload the file's name, and every dispatched listener observes
the written (post-mutation) file. -/
theorem notifyAfterMutation (e : Editor) (p : String) (f : File)
    (h : e.file = some f) :
    (e.openFile p).file = some (File.mk p false)
    ∧ (e.openFile p).log.drop e.log.length
        = (getListeners e.events "open").map
            (fun l => (l, "open", p, some (File.mk p false)))
    ∧ (e.saveFile).map Editor.file = some (some (File.mk f.name true))
    ∧ (e.saveFile).map (fun e2 => e2.log.drop e.log.length)
        = some ((getListeners e.events "save").map
            (fun l => (l, "save", f.name, some (File.mk f.name true)))) := by
  have hsave : e.saveFile
      = some (editorNotify { e with file := some ⟨f.name, true⟩ } "save" f.name) := by
    unfold Editor.saveFile
    rw [h]
  refine ⟨rfl, ?_, ?_, ?_⟩
  · show (e.log ++ (getListeners e.events "open").map
        (fun l => (l, "open", p, some (File.mk p false)))).drop e.log.length = _
    exact drop_length_append _ _
  · rw [hsave]
    rfl
  · rw [hsave]
    show some ((e.log ++ (getListeners e.events "save").map
        (fun l => (l, "save", f.name, some (File.mk f.name true)))).drop
          e.log.length) = _
    rw [drop_length_append]

/-- Editor for the C9 witness: listener 1 on "open", listener 2 on "save",
current file "x.txt", empty trace. -/
def wEditor : Editor := ⟨[("open", [1]), ("save", [2])], some ⟨"x.txt", false⟩, []⟩

/-- C9 witness: opening "y.txt" then saving on a concrete editor dispatches
"open" to listener 1 and "save" to listener 2, each observing the
post-mutation file. -/
theorem notifyAfterMutationWitness :
    (wEditor.openFile "y.txt").file = some (File.mk "y.txt" false)
    ∧ (wEditor.openFile "y.txt").log.drop wEditor.log.length
        = (getListeners wEditor.events "open").map
            (fun l => (l, "open", "y.txt", some (File.mk "y.txt" false)))
    ∧ (wEditor.saveFile).map Editor.file = some (some (File.mk "x.txt" true))
    ∧ (wEditor.saveFile).map (fun e2 => e2.log.drop wEditor.log.length)
        = some ((getListeners wEditor.events "save").map
            (fun l => (l, "save", "x.txt", some (File.mk "x.txt" true)))) :=
  notifyAfterMutation wEditor "y.txt" (File.mk "x.txt" false) rfl

end DesignPatterns
